import Mathlib

/-!
Shallow embedding of `src/walsplit.py` (Walmart Bill Splitter).

The Python program parses a receipt text with two regular expressions,
expands each parsed line item into unit cards, and aggregates an
assignment of unit cards to people into a textual summary.

Modelling conventions:
* text is a `List Char` (a Python `str`);
* the two fixed regular expressions of the source are embedded as
  deterministic matchers (both patterns are deterministic after a trivial
  backtracking analysis: every bounded repetition is followed by a
  character that the repeated class cannot match, so greedy repetition is
  maximal munch, and the single non-greedy group is realised by trying
  capture lengths in increasing order);
* character classes are read in their ASCII meaning;
* currency amounts are exact rationals (`ℚ`); Python uses binary floats,
  but every concrete amount in the claims is an exact multiple of a cent,
  where the two agree.  Arithmetic on amounts is written with the
  kernel-computable wrappers `qOfNat`, `qAdd`, `qMul`, `qDiv`, `qSum`,
  each proved below to agree with the corresponding field operation of
  `ℚ`;
* the pandas `DataFrame` is a `List` of records, its integer index is the
  list position;
* a Python `dict` is an association list; a `KeyError` is modelled by
  `Option`.
-/

/-! ## Computable rational arithmetic wrappers -/

/-- The natural number `n` as a rational number (Python `int` used as a
money amount). -/
def qOfNat (n : ℕ) : ℚ := ⟨Int.ofNat n, 1, Nat.one_ne_zero, Nat.coprime_one_right _⟩

/-- Addition of amounts, via `Rat.divInt` so that the kernel can evaluate
it (the field addition of `ℚ` is `irreducible`). -/
def qAdd (a b : ℚ) : ℚ := Rat.divInt (a.num * b.den + b.num * a.den) ((a.den * b.den : ℕ) : ℤ)

/-- Multiplication of amounts, via `Rat.divInt`. -/
def qMul (a b : ℚ) : ℚ := Rat.divInt (a.num * b.num) ((a.den * b.den : ℕ) : ℤ)

/-- Division of amounts, via `Rat.divInt`.  Like `Rat.div`, division by
zero yields zero (Python float division by zero instead yields `inf`;
the source never divides by zero except on the unguarded zero-quantity
input discussed at claim C2, where the embedding avoids the quotient). -/
def qDiv (a b : ℚ) : ℚ := Rat.divInt (a.num * b.den) (a.den * b.num)

/-- Sum of a list of amounts (pandas `Series.sum`). -/
def qSum (l : List ℚ) : ℚ := l.foldl qAdd (qOfNat 0)

/-! ## Character classes and small string helpers -/

/-- ASCII reading of the regex class `[A-Z]`. -/
def isUpperC (c : Char) : Bool := decide ('A' ≤ c) && decide (c ≤ 'Z')

/-- ASCII reading of the regex class `[a-z]`. -/
def isLowerC (c : Char) : Bool := decide ('a' ≤ c) && decide (c ≤ 'z')

/-- ASCII reading of the regex class `\d`. -/
def isDigitC (c : Char) : Bool := decide ('0' ≤ c) && decide (c ≤ '9')

/-- ASCII reading of the regex class `\s`: space, tab, newline, carriage
return, vertical tab, form feed. -/
def isSpaceC (c : Char) : Bool :=
  c == ' ' || c == '\t' || c == '\n' || c == '\r' || c == '\x0b' || c == '\x0c'

/-- Python `int` on a string of decimal digits. -/
def digitsVal (l : List Char) : Nat :=
  l.foldl (fun a c => 10 * a + (c.toNat - 48)) 0

/-- Python `float` on a captured string `<digits>.<d1><d2>`, as an exact
rational. -/
def decVal (ip : List Char) (d1 d2 : Char) : ℚ :=
  qAdd (qOfNat (digitsVal ip)) (qDiv (qOfNat (digitsVal [d1, d2])) (qOfNat 100))

/-- Python `str.strip()`: remove leading and trailing whitespace. -/
def pyStrip (s : List Char) : List Char :=
  ((s.dropWhile isSpaceC).reverse.dropWhile isSpaceC).reverse

/-- The exact decimal `units.cents`, e.g. `dec2 1 50` is `1.50`.  Used to
write concrete currency amounts in statements in a kernel-computable
form. -/
def dec2 (units cents : Nat) : ℚ := Rat.divInt (units * 100 + cents) 100

/-! ## The item pattern `(.+?)\s+Qty\s+(\d+)\s+\$?(\d+\.\d{2})` -/

/-- One raw match of the item pattern: the three captures (the price
capture split as integer part and the two forced fraction digits) and the
total length of the matched window. -/
structure RawMatch where
  name : List Char
  qtyDigits : List Char
  intPart : List Char
  frac1 : Char
  frac2 : Char
  len : Nat
deriving Repr, DecidableEq

/-- Match the tail `\s+Qty\s+(\d+)\s+\$?(\d+\.\d{2})` of the item pattern
at the head of `cs`.  Every `\s+` and `\d+` is followed by a character its
class cannot match, so greedy matching is maximal munch; `\$?` consumes a
dollar sign exactly when one is present (otherwise a digit must follow,
and a dollar sign is not a digit).  Returns the quantity digits, the
price digits, and the number of characters consumed. -/
def matchTail (cs : List Char) : Option (List Char × List Char × Char × Char × Nat) :=
  let ws1 := cs.takeWhile isSpaceC
  let r1 := cs.drop ws1.length
  if ws1.length = 0 then none else
  match r1 with
  | 'Q' :: 't' :: 'y' :: r2 =>
    let ws2 := r2.takeWhile isSpaceC
    let r3 := r2.drop ws2.length
    if ws2.length = 0 then none else
    let qd := r3.takeWhile isDigitC
    let r4 := r3.drop qd.length
    if qd.length = 0 then none else
    let ws3 := r4.takeWhile isSpaceC
    let r5 := r4.drop ws3.length
    if ws3.length = 0 then none else
    let dollar : Nat := if r5.take 1 = ['$'] then 1 else 0
    let r6 := r5.drop dollar
    let ip := r6.takeWhile isDigitC
    let r7 := r6.drop ip.length
    if ip.length = 0 then none else
    match r7 with
    | '.' :: d1 :: d2 :: _ =>
      if isDigitC d1 && isDigitC d2 then
        some (qd, ip, d1, d2,
          ws1.length + 3 + ws2.length + qd.length + ws3.length + dollar + ip.length + 3)
      else none
    | _ => none
  | _ => none

/-- The non-greedy name capture `(.+?)` of the item pattern: extend the
capture one character at a time (shortest first, as non-greedy demands; a
newline cannot be captured since `.` excludes it) and try the tail after
each extension. -/
def itemGo : List Char → List Char → Option RawMatch
  | _, [] => none
  | name, c :: rest =>
    if c = '\n' then none
    else
      match matchTail rest with
      | some (qd, ip, d1, d2, tl) =>
          some ⟨name ++ [c], qd, ip, d1, d2, name.length + 1 + tl⟩
      | none => itemGo (name ++ [c]) rest

/-- Try the whole item pattern anchored at the head of `cs`. -/
def matchItemAt (cs : List Char) : Option RawMatch := itemGo [] cs

/-- `re.finditer` scan loop: leftmost matches, continuing after the end of
each match (every match consumes at least one character, so the fuel
`cs.length` supplied by `finditer` is sufficient). -/
def scanItems : Nat → List Char → List RawMatch
  | 0, _ => []
  | _ + 1, [] => []
  | fuel + 1, c :: rest =>
    match matchItemAt (c :: rest) with
    | some m => m :: scanItems fuel ((c :: rest).drop m.len)
    | none => scanItems fuel rest

/-- All non-overlapping matches of the item pattern, leftmost first, as in
`re.finditer(pattern, text)`. -/
def finditer (cs : List Char) : List RawMatch := scanItems cs.length cs

/-! ## The date pattern `([A-Z][a-z]{2,8} \d{1,2}, \d{4}) order` -/

/-- Match the date pattern anchored at the head of `cs`, returning the
capture.  `[a-z]{2,8}` is followed by a space and `\d{1,2}` by a comma, so
both are maximal munch with a length bound that rejects longer runs;
`\d{4}` is exactly four digits followed by the literal ` order`. -/
def matchDateAt : List Char → Option (List Char)
  | [] => none
  | c :: rest =>
    let lows := rest.takeWhile isLowerC
    let r2 := rest.drop lows.length
    let ds := (r2.drop 1).takeWhile isDigitC
    let r3 := (r2.drop 1).drop ds.length
    let r4 := r3.drop 2
    let ys := r4.take 4
    if isUpperC c ∧ 2 ≤ lows.length ∧ lows.length ≤ 8 ∧ r2.take 1 = [' ']
        ∧ 1 ≤ ds.length ∧ ds.length ≤ 2 ∧ r3.take 2 = [',', ' ']
        ∧ ys.length = 4 ∧ ys.all isDigitC
        ∧ List.isPrefixOf " order".data (r4.drop 4)
    then some (c :: lows ++ ' ' :: ds ++ ',' :: ' ' :: ys)
    else none

/-- `re.search` for the date pattern: the match at the leftmost starting
position wins. -/
def searchDate : List Char → Option (List Char)
  | [] => none
  | c :: rest =>
    match matchDateAt (c :: rest) with
    | some d => some d
    | none => searchDate rest

/-! ## `parse_receipt` -/

/-- A row appended by the parser loop (line 30 of the source):
`{'item': item.strip(), 'qty': int(qty), 'total': float(total)}`. -/
structure RawRow where
  item : String
  qty : Nat
  total : ℚ
deriving Repr, DecidableEq

/-- Conversion of a raw regex match to a parser row, as in line 30 of the
source. -/
def toRow (m : RawMatch) : RawRow :=
  ⟨String.mk (pyStrip m.name), digitsVal m.qtyDigits, decVal m.intPart m.frac1 m.frac2⟩

/-- A line item of the item table: the columns `item`, `qty`, `total`,
`unit_price` of the DataFrame returned by `parse_receipt` (the spec calls
the fields name, quantity, total, unit price). -/
structure LineItem where
  item : String
  qty : Nat
  total : ℚ
  unit_price : ℚ
deriving Repr, DecidableEq

/-- `parse_receipt` (lines 20 to 39 of the source), starting from the
extracted text: extract the order date, collect the rows of all item
matches, return an empty table if there are none, and otherwise add the
derived column `unit_price = total / qty`. -/
def parse_receipt (text : String) : List LineItem × String :=
  let cs := text.data
  let order_date :=
    match searchDate cs with
    | some d => String.mk d
    | none => "Date Not Found"
  let rows := (finditer cs).map toRow
  if rows.isEmpty then ([], order_date)
  else (rows.map (fun r => ⟨r.item, r.qty, r.total, qDiv r.total (qOfNat r.qty)⟩), order_date)

/-- A manually entered extra item (lines 129 to 138 of the source):
`{'item': name, 'qty': qty, 'total': total, 'unit_price': total / qty}`. -/
def extra_item (name : String) (qty : Nat) (total : ℚ) : LineItem :=
  ⟨name, qty, total, qDiv total (qOfNat qty)⟩

/-! ## Assignments and `build_summary` -/

/-- The assignment tally built in `main` (line 173): a dict from item
index to a dict from person to assigned unit count. -/
abbrev Assignments := List (Nat × List (String × Nat))

/-- `assignments[i]`: dict indexing, `KeyError` modelled as `none`. -/
def lookupIdx (a : Assignments) (i : Nat) : Option (List (String × Nat)) := a.lookup i

/-- `d.get(person, 0)`: dict lookup with default 0. -/
def getPerson (m : List (String × Nat)) (p : String) : Nat := (m.lookup p).getD 0

/-- `assignments[i].get(person, 0)` (line 51 of the source); `none` is the
`KeyError` on a missing item index. -/
def cellQty (a : Assignments) (i : Nat) (p : String) : Option Nat :=
  (lookupIdx a i).map (fun m => getPerson m p)

/-- The value of the `person` column at row `i` once the lookup has
succeeded. -/
def cellQtyD (a : Assignments) (i : Nat) (p : String) : Nat := (cellQty a i p).getD 0

/-- Placeholder line item; never reached, since every row access is at an
index below the table length. -/
def dummyItem : LineItem := ⟨"", 0, qOfNat 0, qOfNat 0⟩

/-- Row `i` of the item table. -/
def itemAt (df : List LineItem) (i : Nat) : LineItem := df.getD i dummyItem

/-- The `{person}_cost` column at row `i` (line 52 of the source):
assigned quantity times unit price. -/
def cellCost (df : List LineItem) (a : Assignments) (i : Nat) (p : String) : ℚ :=
  qMul (qOfNat (cellQtyD a i p)) (itemAt df i).unit_price

/-- `assign_df[f"{person}_cost"].sum()` (line 59 of the source). -/
def person_total (df : List LineItem) (a : Assignments) (p : String) : ℚ :=
  qSum ((List.range df.length).map (fun i => cellCost df a i p))

/-- `sum(assign_df[f"{p}_cost"].sum() for p in people)` (line 69 of the
source): the grand total is the sum of the per-person totals; unassigned
units appear in no dict of any person and so contribute nothing. -/
def grand_total (df : List LineItem) (a : Assignments) (people : List String) : ℚ :=
  qSum (people.map (fun p => person_total df a p))

/-- Python `f"{x:.2f}"` on an amount: round to a whole number of cents and
print with two fraction digits. -/
def formatMoney (q : ℚ) : String :=
  let c : Int := (qAdd (qMul q (qOfNat 100)) (qDiv (qOfNat 1) (qOfNat 2))).floor
  let a := c.natAbs
  (if c < 0 then "-" else "") ++ toString (a / 100) ++ "." ++
    (if a % 100 < 10 then "0" else "") ++ toString (a % 100)

/-- One displayed row `f"{qty}× {row['item']} – ${cost:.2f}"` (line 65 of
the source). -/
def itemLine (df : List LineItem) (a : Assignments) (p : String) (i : Nat) : String :=
  toString (cellQtyD a i p) ++ "× " ++ (itemAt df i).item ++ " – $" ++
    formatMoney (cellCost df a i p) ++ "\n"

/-- The per-person section (lines 58 to 66 of the source): the person
total line, one line per row with positive assigned quantity (in table
order), then a blank line. -/
def personSection (df : List LineItem) (a : Assignments) (p : String) : String :=
  p ++ ": $" ++ formatMoney (person_total df a p) ++ "\n" ++
    ((((List.range df.length).filter (fun i => 0 < cellQtyD a i p)).map
        (itemLine df a p)).foldl (· ++ ·) "") ++ "\n"

/-- The full summary text (lines 55 to 70 of the source): date header,
per-person sections in the given order, grand total line. -/
def summaryText (df : List LineItem) (a : Assignments) (people : List String)
    (order_date : String) : String :=
  order_date ++ ":\n\n" ++
    (people.map (fun p => personSection df a p)).foldl (· ++ ·) "" ++
    ("Grand Total = $" ++ formatMoney (grand_total df a people) ++ "\n")

/-- Sequence a list of options: `none` exactly when some element is
`none` (the first `KeyError` aborts the computation). -/
def seqOptions {α : Type} : List (Option α) → Option (List α)
  | [] => some []
  | none :: _ => none
  | some x :: rest =>
    match seqOptions rest with
    | some xs => some (x :: xs)
    | none => none

/-- `build_summary` (lines 43 to 72 of the source).  Building the per
person quantity columns evaluates `assignments[i].get(person, 0)` for
every person and every row index (lines 50 to 52), which raises a
`KeyError`, modelled as `none`, when some row index is missing from
`assignments`; otherwise the summary text is produced from those cell
values. -/
def build_summary (df : List LineItem) (a : Assignments) (people : List String)
    (order_date : String) : Option String :=
  match seqOptions (people.map (fun p =>
      seqOptions ((List.range df.length).map (fun i => cellQty a i p)))) with
  | none => none
  | some _ => some (summaryText df a people order_date)

/-! ## Unit cards -/

/-- One unit card label `f"{idx}_{i}: {row['item']}"` (line 152 of the
source). -/
def card (idx : Nat) (row : LineItem) (i : Nat) : String :=
  toString idx ++ "_" ++ toString i ++ ": " ++ row.item

/-- The unit card preparation loop of `main` (lines 149 to 152): for each
row, in table order, append one card per unit ordinal `0..qty-1`. -/
def unit_cards (df : List LineItem) : List String :=
  df.enum.foldl (fun acc p => acc ++ (List.range p.2.qty).map (card p.1 p.2)) []

/-- The block of unit cards contributed by each row, in table order. -/
def unitBlocks (df : List LineItem) : List (List String) :=
  df.enum.map (fun p => (List.range p.2.qty).map (card p.1 p.2))

/-! ## Bridge lemmas: the computable wrappers agree with the field
operations of `ℚ` -/

theorem qOfNat_eq (n : ℕ) : qOfNat n = (n : ℚ) := by
  apply Rat.ext <;> simp [qOfNat]

theorem num_cast_eq_self_mul_den (a : ℚ) : (a.num : ℚ) = a * (a.den : ℚ) := by
  have ha : ((a.den : ℚ)) ≠ 0 := Nat.cast_ne_zero.mpr a.den_nz
  have h := Rat.num_div_den a
  rw [div_eq_iff ha] at h
  exact h

theorem qAdd_eq (a b : ℚ) : qAdd a b = a + b := by
  have ha : ((a.den : ℚ)) ≠ 0 := Nat.cast_ne_zero.mpr a.den_nz
  have hb : ((b.den : ℚ)) ≠ 0 := Nat.cast_ne_zero.mpr b.den_nz
  rw [qAdd, Rat.divInt_eq_div]
  push_cast
  rw [div_eq_iff (mul_ne_zero ha hb), num_cast_eq_self_mul_den a, num_cast_eq_self_mul_den b]
  ring

theorem qMul_eq (a b : ℚ) : qMul a b = a * b := by
  have ha : ((a.den : ℚ)) ≠ 0 := Nat.cast_ne_zero.mpr a.den_nz
  have hb : ((b.den : ℚ)) ≠ 0 := Nat.cast_ne_zero.mpr b.den_nz
  rw [qMul, Rat.divInt_eq_div]
  push_cast
  rw [div_eq_iff (mul_ne_zero ha hb), num_cast_eq_self_mul_den a, num_cast_eq_self_mul_den b]
  ring

theorem qDiv_eq (a b : ℚ) : qDiv a b = a / b := by
  by_cases hb0 : b = 0
  · subst hb0
    rw [qDiv]
    norm_num
  · have ha : ((a.den : ℚ)) ≠ 0 := Nat.cast_ne_zero.mpr a.den_nz
    have hbn : ((b.num : ℚ)) ≠ 0 :=
      Int.cast_ne_zero.mpr (Rat.num_ne_zero.mpr hb0)
    rw [qDiv, Rat.divInt_eq_div]
    push_cast
    rw [div_eq_div_iff (mul_ne_zero ha hbn) hb0, num_cast_eq_self_mul_den a,
      num_cast_eq_self_mul_den b]
    ring

theorem qSum_foldl (l : List ℚ) (acc : ℚ) : l.foldl qAdd acc = acc + l.sum := by
  induction l generalizing acc with
  | nil => simp
  | cons x xs ih => simp [List.foldl_cons, qAdd_eq, ih, add_assoc]

theorem qSum_eq (l : List ℚ) : qSum l = l.sum := by
  rw [qSum, qSum_foldl, qOfNat_eq]
  simp

/-! ## General list helpers -/

theorem sum_map_add (l : List α) (f g : α → ℚ) :
    (l.map (fun x => f x + g x)).sum = (l.map f).sum + (l.map g).sum := by
  induction l with
  | nil => simp
  | cons x xs ih => simp [ih]; ring

theorem sum_map_zero (l : List α) : (l.map (fun _ => (0 : ℚ))).sum = 0 := by
  induction l with
  | nil => rfl
  | cons x xs ih => simp [ih]

theorem sum_comm_list (P : List α) (I : List β) (f : α → β → ℚ) :
    (P.map (fun p => (I.map (fun i => f p i)).sum)).sum
      = (I.map (fun i => (P.map (fun p => f p i)).sum)).sum := by
  induction P with
  | nil => simp [sum_map_zero]
  | cons p P ih =>
      simp only [List.map_cons, List.sum_cons, ih, ← sum_map_add]

theorem range_map_itemAt (df : List LineItem) (f : LineItem → ℚ) :
    (List.range df.length).map (fun i => f (itemAt df i)) = df.map f := by
  induction df with
  | nil => rfl
  | cons x xs ih =>
      rw [List.length_cons, List.range_succ_eq_map, List.map_cons, List.map_map]
      refine congrArg₂ _ rfl ?_
      rw [← ih]
      apply List.map_congr_left
      intro i _
      simp [itemAt, Function.comp]

theorem enumFrom_map_snd (l : List LineItem) (f : LineItem → α) (n : Nat) :
    (List.enumFrom n l).map (fun p => f p.2) = l.map f := by
  induction l generalizing n with
  | nil => rfl
  | cons x xs ih => simp [List.enumFrom, ih]

theorem foldl_append_eq {α β : Type} (g : α → List β) (l : List α) (acc : List β) :
    l.foldl (fun a x => a ++ g x) acc = acc ++ (l.map g).flatten := by
  induction l generalizing acc with
  | nil => simp
  | cons x xs ih => simp [ih]

theorem seqOptions_nil {α : Type} : seqOptions ([] : List (Option α)) = some [] := rfl

theorem seqOptions_cons_none {α : Type} (rest : List (Option α)) :
    seqOptions (none :: rest) = none := rfl

theorem seqOptions_cons_some {α : Type} (x : α) (rest : List (Option α)) :
    seqOptions (some x :: rest) = (seqOptions rest).map (x :: ·) := by
  cases h : seqOptions rest <;> simp [seqOptions, h]

theorem seqOptions_isSome {α : Type} (l : List (Option α)) :
    (seqOptions l).isSome = true ↔ ∀ o ∈ l, o.isSome = true := by
  induction l with
  | nil => simp [seqOptions_nil]
  | cons o rest ih =>
      cases o with
      | none => simp [seqOptions_cons_none]
      | some x => simp [seqOptions_cons_some, Option.isSome_map', ih]

theorem strAppend_assoc (a b c : String) : (a ++ b) ++ c = a ++ (b ++ c) :=
  String.ext (by simp)

/-! ## Facts about `parse_receipt` -/

theorem parse_receipt_items (text : String) :
    (parse_receipt text).1 =
      ((finditer text.data).map toRow).map
        (fun r => ⟨r.item, r.qty, r.total, qDiv r.total (qOfNat r.qty)⟩) := by
  simp only [parse_receipt]
  split
  case isTrue h =>
    rw [List.isEmpty_iff] at h
    rw [h]
    rfl
  case isFalse h => rfl

theorem parse_receipt_date (text : String) :
    (parse_receipt text).2 =
      (match searchDate text.data with
       | some d => String.mk d
       | none => "Date Not Found") := by
  simp only [parse_receipt]
  split <;> rfl

/-! ## The claims -/

/-- Claim C1: for every input text, the parser emits one LineItem per
non-overlapping match of the item pattern, with name the trimmed
non-greedy item-name capture, quantity the parsed integer, total the
parsed two-decimal number, and unit price total divided by quantity; in
particular the text `"Bananas Qty 3 $1.50\n"` yields the single item
`{Bananas, 3, 1.50, 0.50}`. -/
theorem C1_line_item_extraction :
    (∀ text : String,
      (parse_receipt text).1 = (finditer text.data).map (fun m =>
        ⟨String.mk (pyStrip m.name), digitsVal m.qtyDigits,
          decVal m.intPart m.frac1 m.frac2,
          decVal m.intPart m.frac1 m.frac2 / ((digitsVal m.qtyDigits : ℕ) : ℚ)⟩))
    ∧ (parse_receipt "Bananas Qty 3 $1.50\n").1 = [⟨"Bananas", 3, dec2 1 50, dec2 0 50⟩] := by
  constructor
  · intro text
    rw [parse_receipt_items, List.map_map]
    apply List.map_congr_left
    intro m _
    simp only [Function.comp_apply]
    rw [qDiv_eq, qOfNat_eq]
    rfl
  · decide

/-- Claim C2: the claim asks that a match with quantity 0 be skipped or
rejected; the source has no such guard (the spec itself records this as an
open question), so the zero-quantity row enters the item table and the
unit price is computed as `total / 0`.  On the input
`"Thing Qty 0 $1.50"` the parser emits a LineItem with quantity 0. -/
theorem C2_zero_quantity_enters_table :
    ((parse_receipt "Thing Qty 0 $1.50").1.map (fun li => (li.item, li.qty, li.total)))
      = [("Thing", 0, dec2 1 50)] := by decide

/-- Claim C3: when every unit of every item is assigned to some person,
the grand total equals the sum of all LineItem totals (stated with the
LineItem invariants that hold for every table the program builds:
positive quantity and unit price equal to total over quantity). -/
theorem C3_reconciliation (df : List LineItem) (a : Assignments) (people : List String)
    (hqty : ∀ i, i < df.length → 0 < (itemAt df i).qty)
    (hunit : ∀ i, i < df.length →
      (itemAt df i).unit_price = qDiv (itemAt df i).total (qOfNat (itemAt df i).qty))
    (hfull : ∀ i, i < df.length →
      (people.map (fun p => cellQtyD a i p)).sum = (itemAt df i).qty) :
    grand_total df a people = (df.map LineItem.total).sum := by
  rw [grand_total, qSum_eq]
  simp only [person_total, qSum_eq]
  rw [sum_comm_list, ← range_map_itemAt df LineItem.total]
  apply congrArg
  apply List.map_congr_left
  intro i hi
  have hi' := List.mem_range.mp hi
  have hq0 : (((itemAt df i).qty : ℕ) : ℚ) ≠ 0 :=
    Nat.cast_ne_zero.mpr (Nat.pos_iff_ne_zero.mp (hqty i hi'))
  simp only [cellCost, qMul_eq, qOfNat_eq]
  rw [List.sum_map_mul_right]
  have hcast : (people.map (fun p => ((cellQtyD a i p : ℕ) : ℚ))).sum
      = (((people.map (fun p => cellQtyD a i p)).sum : ℕ) : ℚ) := by
    rw [Nat.cast_list_sum, List.map_map]
    rfl
  rw [hcast, hfull i hi', hunit i hi', qDiv_eq, qOfNat_eq, mul_comm,
    div_mul_cancel₀ _ hq0]

theorem C3_reconciliation_witness :
    grand_total [⟨"Bananas", 3, dec2 1 50, dec2 0 50⟩]
        [(0, [("Alice", 2), ("Bob", 1)])] ["Alice", "Bob"]
      = (([⟨"Bananas", 3, dec2 1 50, dec2 0 50⟩] : List LineItem).map LineItem.total).sum :=
  C3_reconciliation _ _ _ (by decide) (by decide) (by decide)

/-- Claim C4: the grand total is the sum over all people of their person
totals; units left unassigned contribute to no person and not to the
grand total.  Scenario C: Bananas ×3 at 1.50, Alice two units and Bob
one, gives exactly the claimed summary text; with only two of the three
units assigned the grand total drops to 1.00. -/
theorem C4_grand_total_sums_person_totals :
    (∀ (df : List LineItem) (a : Assignments) (people : List String),
        grand_total df a people = (people.map (fun p => person_total df a p)).sum)
    ∧ build_summary [⟨"Bananas", 3, dec2 1 50, dec2 0 50⟩] [(0, [("Alice", 2), ("Bob", 1)])]
        ["Alice", "Bob"] "Oct 5, 2023"
      = some ("Oct 5, 2023:\n\nAlice: $1.00\n2× Bananas – $1.00\n\nBob: $0.50\n1× Bananas – $0.50\n\nGrand Total = $1.50\n")
    ∧ grand_total [⟨"Bananas", 3, dec2 1 50, dec2 0 50⟩] [(0, [("Alice", 1), ("Bob", 1)])]
        ["Alice", "Bob"] = dec2 1 0 := by
  refine ⟨?_, by decide, by decide⟩
  intro df a people
  rw [grand_total, qSum_eq]

/-- Claim C5: when zero item matches are found the parser returns an
empty item table without failing, and on the empty text the order date is
the sentinel. -/
theorem C5_no_matches_empty_table :
    (∀ text : String, finditer text.data = [] → (parse_receipt text).1 = [])
    ∧ parse_receipt "" = ([], "Date Not Found") := by
  constructor
  · intro text h
    rw [parse_receipt_items, h]
    rfl
  · decide

theorem C5_no_matches_empty_table_witness :
    finditer "no items in this text".data = []
      ∧ (parse_receipt "no items in this text").1 = [] :=
  ⟨by decide, C5_no_matches_empty_table.1 "no items in this text" (by decide)⟩

/-- Claim C6: the order date is the capture of the first substring
matching the date pattern, and the sentinel when there is none.  The
conjuncts state: the returned date is the first search result or the
sentinel; a successful anchored match captures a string of the shape
capitalised month of 3 to 9 letters, space, 1 to 2 digit day, comma,
space, 4 digit year; scenario B; the first of two dates wins; no match
gives the sentinel. -/
theorem C6_order_date_extraction :
    (∀ text : String, (parse_receipt text).2 =
        (match searchDate text.data with
         | some d => String.mk d
         | none => "Date Not Found"))
    ∧ (∀ (cs d : List Char), matchDateAt cs = some d →
        ∃ mo dy yr, d = mo ++ ' ' :: dy ++ ',' :: ' ' :: yr
          ∧ (∃ u ls, mo = u :: ls ∧ isUpperC u = true ∧ ls.all isLowerC = true
              ∧ 2 ≤ ls.length ∧ ls.length ≤ 8)
          ∧ 1 ≤ dy.length ∧ dy.length ≤ 2 ∧ dy.all isDigitC = true
          ∧ yr.length = 4 ∧ yr.all isDigitC = true)
    ∧ (parse_receipt "see my Oct 5, 2023 order details").2 = "Oct 5, 2023"
    ∧ (parse_receipt "Oct 5, 2023 order and Nov 6, 2024 order").2 = "Oct 5, 2023"
    ∧ (parse_receipt "no order date in here").2 = "Date Not Found" := by
  refine ⟨parse_receipt_date, ?_, by decide, by decide, by decide⟩
  intro cs d h
  cases cs with
  | nil => simp [matchDateAt] at h
  | cons c rest =>
      simp only [matchDateAt] at h
      set lows := rest.takeWhile isLowerC with hlows
      set r2 := rest.drop lows.length with hr2
      set ds := (r2.drop 1).takeWhile isDigitC with hds
      set r3 := (r2.drop 1).drop ds.length with hr3
      set ys := ((r3.drop 2).take 4) with hys
      split_ifs at h with hc
      obtain ⟨h1, h2, h3, h4, h5, h6, h7, h8, h9, h10⟩ := hc
      injection h with hd
      subst hd
      refine ⟨c :: lows, ds, ys, by simp, ⟨c, lows, rfl, h1, ?_, h2, h3⟩,
        h5, h6, ?_, h8, h9⟩
      · exact List.all_eq_true.mpr fun x hx => List.mem_takeWhile_imp hx
      · exact List.all_eq_true.mpr fun x hx => List.mem_takeWhile_imp hx

theorem C6_order_date_extraction_witness :
    ∃ mo dy yr, "Oct 5, 2023".data = mo ++ ' ' :: dy ++ ',' :: ' ' :: yr
      ∧ (∃ u ls, mo = u :: ls ∧ isUpperC u = true ∧ ls.all isLowerC = true
          ∧ 2 ≤ ls.length ∧ ls.length ≤ 8)
      ∧ 1 ≤ dy.length ∧ dy.length ≤ 2 ∧ dy.all isDigitC = true
      ∧ yr.length = 4 ∧ yr.all isDigitC = true :=
  C6_order_date_extraction.2.1 "Oct 5, 2023 order".data "Oct 5, 2023".data (by decide)

/-- Claim C7: the unit expander emits, for the row at index i, exactly
`qty i` unit cards with ordinals 0 to `qty i - 1`, concatenated in table
order: the card list is the concatenation of the per-row blocks, and the
block lengths are exactly the row quantities. -/
theorem C7_unit_expander (df : List LineItem) :
    unit_cards df = (unitBlocks df).flatten
    ∧ (unitBlocks df).map List.length = df.map LineItem.qty := by
  constructor
  · rw [unit_cards, unitBlocks, foldl_append_eq]
    rfl
  · rw [unitBlocks, List.map_map]
    have hfun : (List.length ∘ fun p : Nat × LineItem =>
        (List.range p.2.qty).map (card p.1 p.2)) = fun p : Nat × LineItem => p.2.qty := by
      funext p
      simp
    rw [hfun]
    exact enumFrom_map_snd df LineItem.qty 0

/-- Claim C8: with an empty people list `build_summary` does not fail; it
returns the degenerate summary with no per-person section and a grand
total line of $0.00. -/
theorem C8_empty_people (df : List LineItem) (a : Assignments) (d : String) :
    build_summary df a [] d = some (d ++ ":\n\nGrand Total = $0.00\n") := by
  have h1 : build_summary df a [] d = some (summaryText df a [] d) := rfl
  have h3 : formatMoney (qOfNat 0) = "0.00" := by decide
  rw [h1]
  simp only [summaryText, grand_total, qSum, List.map_nil, List.foldl_nil, h3]
  refine congrArg some ?_
  rw [strAppend_assoc, strAppend_assoc]
  exact congrArg (fun s => d ++ s) (by decide)

/-- Claim C9: every LineItem entering the table, parsed or manually
entered, has its unit price established at construction as total divided
by quantity (exactly, in the rational model). -/
theorem C9_unit_price_from_construction :
    (∀ (text : String) (li : LineItem), li ∈ (parse_receipt text).1 →
        li.unit_price = li.total / ((li.qty : ℕ) : ℚ))
    ∧ (∀ (name : String) (qty : Nat) (total : ℚ),
        (extra_item name qty total).unit_price
          = (extra_item name qty total).total
            / (((extra_item name qty total).qty : ℕ) : ℚ)) := by
  constructor
  · intro text li hmem
    rw [parse_receipt_items] at hmem
    obtain ⟨m, -, rfl⟩ := List.mem_map.mp hmem
    dsimp only
    rw [qDiv_eq, qOfNat_eq]
  · intro name qty total
    dsimp only [extra_item]
    rw [qDiv_eq, qOfNat_eq]

theorem C9_unit_price_from_construction_witness :
    (⟨"Bananas", 3, dec2 1 50, dec2 0 50⟩ : LineItem).unit_price
      = (⟨"Bananas", 3, dec2 1 50, dec2 0 50⟩ : LineItem).total
        / (((⟨"Bananas", 3, dec2 1 50, dec2 0 50⟩ : LineItem).qty : ℕ) : ℚ) :=
  C9_unit_price_from_construction.1 "Bananas Qty 3 $1.50\n" _ (by decide)

/-- Claim C10: `build_summary` implicitly requires the assignment map to
contain every row index: with non-empty people and table it succeeds
exactly when every index below the table length is present (a missing
index is the `KeyError` of `assignments[i]`, while a person missing from
a present entry merely defaults to 0). -/
theorem C10_missing_index_key_error (df : List LineItem) (a : Assignments)
    (people : List String) (d : String) (hp : people ≠ []) (_hdf : df ≠ []) :
    (build_summary df a people d).isSome = true
      ↔ ∀ i, i < df.length → (lookupIdx a i).isSome = true := by
  have hbs : (build_summary df a people d).isSome
      = (seqOptions (people.map (fun p =>
          seqOptions ((List.range df.length).map (fun i => cellQty a i p))))).isSome := by
    simp only [build_summary]
    cases h : seqOptions (people.map (fun p =>
        seqOptions ((List.range df.length).map (fun i => cellQty a i p)))) <;>
      rfl
  rw [hbs, seqOptions_isSome]
  constructor
  · intro h i hi
    obtain ⟨p0, hp0⟩ := List.exists_mem_of_ne_nil _ hp
    have h2 := h _ (List.mem_map.mpr ⟨p0, hp0, rfl⟩)
    rw [seqOptions_isSome] at h2
    have h3 := h2 _ (List.mem_map.mpr ⟨i, List.mem_range.mpr hi, rfl⟩)
    simpa [cellQty] using h3
  · intro h o ho
    obtain ⟨p, hpmem, rfl⟩ := List.mem_map.mp ho
    rw [seqOptions_isSome]
    intro o2 ho2
    obtain ⟨i, hi, rfl⟩ := List.mem_map.mp ho2
    simpa [cellQty] using h i (List.mem_range.mp hi)

theorem C10_missing_index_key_error_witness :
    ((build_summary [⟨"Tax", 1, dec2 2 37, dec2 2 37⟩] [] ["Alice"] "Date Not Found").isSome
        = true
      ↔ ∀ i, i < ([⟨"Tax", 1, dec2 2 37, dec2 2 37⟩] : List LineItem).length →
          (lookupIdx [] i).isSome = true) :=
  C10_missing_index_key_error _ _ _ _ (by decide) (by decide)
